import Mathlib

/-!
Verification of the pocketcoder `a1` session-loop system: a shallow
embedding of the task store (`tasks.py`), the checkpoint store
(`checkpoint.py`) and the session-loop verification engine (`loop.py`),
with theorems about the behaviour described in the specification.
-/

namespace A1

/-! ### Task store (`src/a1/tasks.py`) -/

/-- The `Task` dataclass of `tasks.py`.  `status` and `priority` keep their
Python representations (status strings, integer priority). -/
structure Task where
  id : String
  title : String
  description : String := ""
  status : String := "pending"
  priority : Int := 0
  created_at : String := ""
  completed_at : Option String := none
  raw_thought : Option String := none
  phase : Option String := none
  success_criteria : Option String := none
deriving Repr, DecidableEq

/-- The JSON document managed by `TaskManager` (`_load_data` /
`_save_data`): raw thoughts, the task list, and the id counter. -/
structure TaskData where
  raw_thoughts : List String
  tasks : List Task
  next_id : Nat
deriving Repr, DecidableEq

/-- Zero padding of Python's `f"{n:03d}"`: pad the decimal representation
with leading zeros to at least three characters. -/
def zeroPad3 (s : String) : String :=
  String.mk (List.replicate (3 - s.length) '0') ++ s

/-- The task id string `f"task_{n:03d}"` assigned by `add_task`. -/
def formatTaskId (n : Nat) : String :=
  "task_" ++ zeroPad3 (Nat.repr n)

/-- Python's `max(l, default=d)`: the maximum of the list, or `d` when the
list is empty. -/
def pyMax (l : List Int) (dflt : Int) : Int :=
  match l with
  | [] => dflt
  | x :: xs => xs.foldl max x

/-- `TaskManager.add_task`: assign the next sequential id, a priority one
past the current maximum (`max(existing_priorities, default=0) + 1`),
append the task and bump `next_id`.  Returns the new document and the
created task. -/
def add_task (data : TaskData) (title : String) (description : String)
    (raw_thought : Option String) (now : String) : TaskData × Task :=
  let next_priority := pyMax (data.tasks.map Task.priority) 0 + 1
  let task : Task :=
    { id := formatTaskId data.next_id
      title := title
      description := description
      status := "pending"
      priority := next_priority
      created_at := now
      completed_at := none
      raw_thought := raw_thought
      phase := none
      success_criteria := none }
  ({ data with tasks := data.tasks ++ [task], next_id := data.next_id + 1 }, task)

/-- A sequence of `add_task` calls: perform the adds left to right and
collect the created tasks. -/
def addMany (data : TaskData) (items : List (String × String)) (now : String) :
    TaskData × List Task :=
  match items with
  | [] => (data, [])
  | td :: rest =>
    let r := add_task data td.1 td.2 none now
    let r2 := addMany r.1 rest now
    (r2.1, r.2 :: r2.2)

/-- `TaskManager.get_tasks`: all tasks, optionally filtered by status.
A `None` (or falsy, i.e. empty) status string means no filtering, as in
Python `if status:`. -/
def get_tasks (data : TaskData) (status : Option String) : List Task :=
  match status with
  | none => data.tasks
  | some s => if s = "" then data.tasks else data.tasks.filter (fun t => t.status = s)

/-- The comparison key of `sorted(tasks, key=lambda t: t.priority)`. -/
def taskLE (a b : Task) : Prop := a.priority ≤ b.priority

instance : DecidableRel taskLE := fun a b => inferInstanceAs (Decidable (a.priority ≤ b.priority))

/-- `TaskManager.get_next_task`: first look for `in_progress` tasks and
return the one with the lowest priority; otherwise the lowest-priority
`pending` task; otherwise `None`.  `sorted(...)[0]` is modelled by the
head of a stable sort by priority. -/
def get_next_task (data : TaskData) : Option Task :=
  let in_progress := get_tasks data (some "in_progress")
  if in_progress ≠ [] then
    (List.insertionSort taskLE in_progress).head?
  else
    let pending := get_tasks data (some "pending")
    if pending ≠ [] then
      (List.insertionSort taskLE pending).head?
    else
      none

/-- Update the first task whose id matches, applying the field update `u`
(the `dict.update(kwargs)` of the Python code).  Returns `none` when no
task matches. -/
def updateFirst (task_id : String) (u : Task → Task) :
    List Task → Option (List Task × Task)
  | [] => none
  | t :: ts =>
    if t.id = task_id then
      some (u t :: ts, u t)
    else
      match updateFirst task_id u ts with
      | some (ts', t') => some (t :: ts', t')
      | none => none

/-- The priority migration loop of `TaskManager._load_data`: a task at
position `i` whose priority is missing or zero gets priority `i + 1`
(a missing `priority` key parses to the dataclass default 0). -/
def migrateTasks : Nat → List Task → List Task
  | _, [] => []
  | i, t :: ts =>
    (if t.priority = 0 then { t with priority := (i : Int) + 1 } else t) ::
      migrateTasks (i + 1) ts

/-- Whether `_load_data`'s migration has to save the document: some task
has a missing or zero priority. -/
def needsMigration (data : TaskData) : Bool :=
  data.tasks.any (fun t => t.priority = 0)

/-- `TaskManager._load_data` on a present, parsable document: migrate the
priorities and save the document when anything changed.  Returns the
loaded data and whether `_save_data` was called. -/
def _load_data (stored : TaskData) : TaskData × Bool :=
  ({ stored with tasks := migrateTasks 0 stored.tasks }, needsMigration stored)

/-- `TaskManager.update_task`: load the document (migrating priorities and
saving if anything changed), find the task by id, merge the keyword
arguments into it and save; return `None` when the id is absent.  The
result records the persisted document, the returned task, and how many
times `_save_data` was called. -/
def update_task (stored : TaskData) (task_id : String) (u : Task → Task) :
    TaskData × Option Task × Nat :=
  let ld := _load_data stored
  let migrationWrites := if ld.2 then 1 else 0
  match updateFirst task_id u ld.1.tasks with
  | some (ts', t') => ({ ld.1 with tasks := ts' }, some t', migrationWrites + 1)
  | none => ((if ld.2 then ld.1 else stored), none, migrationWrites)

/-- The priority that `reorder_tasks` assigns to `tid`: Python builds
`{tid: idx + 1 for idx, tid in enumerate(task_ids)}`, so on duplicate ids
the last position wins. -/
def idToPriority (task_ids : List String) (tid : String) : Option Nat :=
  (task_ids.enum.filterMap
    (fun p => if p.2 = tid then some (p.1 + 1) else none)).getLast?

/-- The per-task update of `reorder_tasks`: set
`priority := position + 1` when the task's id occurs in `task_ids`,
leave the task untouched otherwise. -/
def reorderTask (task_ids : List String) (t : Task) : Task :=
  match idToPriority task_ids t.id with
  | some p => { t with priority := (p : Int) }
  | none => t

/-- `TaskManager.reorder_tasks`: re-assign `priority := position + 1` to
every task whose id occurs in `task_ids`; other tasks are untouched. -/
def reorder_tasks (data : TaskData) (task_ids : List String) : TaskData :=
  { data with tasks := data.tasks.map (reorderTask task_ids) }

/-- The first index of `tid` in a list of ids. -/
def firstIdx : List String → String → Option Nat
  | [], _ => none
  | x :: xs, tid => if x = tid then some 0 else (firstIdx xs tid).map (· + 1)

/-- `TaskManager.get_progress`: `(done, total)`. -/
def get_progress (data : TaskData) : Nat × Nat :=
  ((data.tasks.filter (fun t => t.status = "done")).length, data.tasks.length)

/-! ### Checkpoint store (`src/a1/checkpoint.py`) -/

/-- The `last_verification` record persisted into the checkpoint by
`SessionLoop.start` when the agent claims completion but verification
fails. -/
structure LastVerification where
  passed : Bool
  blocking_issues : List String
  warnings : List String
  retry_count : Nat
  session : Nat
deriving Repr, DecidableEq

/-- The checkpoint document (`checkpoint.json`).  Fields mirror the keys
written by `CheckpointManager` and `SessionLoop`; `last_verification` is
`none` while the key is absent. -/
structure Checkpoint where
  status : String
  session : Nat
  current_task : Option String
  context_percent : Int
  files_modified : List String
  decisions : List String
  next_steps : List String
  last_action : Option String
  session_metrics : List (String × Int)
  last_verification : Option LastVerification
  created_at : String
  updated_at : String
deriving Repr, DecidableEq

/-- The on-disk state of `checkpoint.json`: absent, unparsable JSON, or a
parsed checkpoint. -/
inductive FileState where
  | missing : FileState
  | malformed : FileState
  | valid : Checkpoint → FileState
deriving Repr, DecidableEq

/-- Insert-or-replace into the archive directory (`checkpoints/`): writing
`session_{n:03d}.json` overwrites an existing file of that name and
otherwise creates a new one. -/
def setArchive (archive : List (Nat × Checkpoint)) (k : Nat) (v : Checkpoint) :
    List (Nat × Checkpoint) :=
  match archive with
  | [] => [(k, v)]
  | (k', v') :: rest =>
    if k' = k then (k, v) :: rest else (k', v') :: setArchive rest k v

/-- First-match lookup in the archive directory. -/
def lookupArchive (archive : List (Nat × Checkpoint)) (k : Nat) :
    Option Checkpoint :=
  match archive with
  | [] => none
  | (k', v') :: rest => if k' = k then some v' else lookupArchive rest k

/-- The file-system state owned by `CheckpointManager`: the mutable
current record and the archive directory. -/
structure CheckpointFS where
  checkpoint_file : FileState
  archive : List (Nat × Checkpoint)
deriving Repr, DecidableEq

/-- `CheckpointManager._create_initial`: the default initial checkpoint
record (`now` stands for `datetime.now().isoformat()`). -/
def _create_initial (now : String) : Checkpoint :=
  { status := "STARTING"
    session := 0
    current_task := none
    context_percent := 0
    files_modified := []
    decisions := []
    next_steps := []
    last_action := none
    session_metrics := []
    last_verification := none
    created_at := now
    updated_at := now }

/-- `CheckpointManager.load`: return the parsed current record, or the
initial record when the file is missing or unparsable
(`json.JSONDecodeError` / `IOError` are caught). -/
def load (fs : CheckpointFS) (now : String) : Checkpoint :=
  match fs.checkpoint_file with
  | FileState.missing => _create_initial now
  | FileState.malformed => _create_initial now
  | FileState.valid cp => cp

/-- `CheckpointManager.save`: stamp `updated_at`, write the current
record, and write the archive copy keyed by the checkpoint's `session`
field. -/
def save (fs : CheckpointFS) (checkpoint : Checkpoint) (now : String) :
    CheckpointFS :=
  let cp := { checkpoint with updated_at := now }
  { checkpoint_file := FileState.valid cp
    archive := setArchive fs.archive cp.session cp }

/-! ### Verification engine (`src/a1/loop.py`) -/

/-- The `ValidationResult` enum of `validator.py`. -/
inductive ValidationResult where
  | ok : ValidationResult
  | fail : ValidationResult
  | skip : ValidationResult
  | error : ValidationResult
deriving Repr, DecidableEq

/-- `ValidationResult.value` — the enum's string value. -/
def ValidationResult.value : ValidationResult → String
  | ValidationResult.ok => "ok"
  | ValidationResult.fail => "fail"
  | ValidationResult.skip => "skip"
  | ValidationResult.error => "error"

/-- The `ValidationReport` dataclass of `validator.py` (the `command`
field is irrelevant to verification and omitted from comparisons it never
participates in). -/
structure ValidationReport where
  result : ValidationResult
  message : String
  details : Option String := none
deriving Repr, DecidableEq

/-- A baseline entry captured by `SessionLoop._capture_baseline`:
`{"result": ..., "message": ...}`. -/
structure BaselineEntry where
  result : String
  message : String
deriving Repr, DecidableEq

/-- First-match lookup in a string-keyed association list (Python dict
access; dict keys are unique). -/
def lookupStr {α : Type} (l : List (String × α)) (k : String) : Option α :=
  match l with
  | [] => none
  | (k', v) :: rest => if k' = k then some v else lookupStr rest k

/-- `SessionLoop._is_new_issue`: a failure is pre-existing (not new) only
when a non-empty baseline exists and records the same check as `"fail"`.
`none` models the `_baseline` attribute being absent. -/
def _is_new_issue (baseline : Option (List (String × BaselineEntry)))
    (check_name : String) : Bool :=
  match baseline with
  | none => true
  | some b =>
    if b = [] then true
    else
      match lookupStr b check_name with
      | some e => if e.result = "fail" then false else true
      | none => true

/-- `SessionLoop.BLOCKING_CHECKS` — checks that block completion. -/
def BLOCKING_CHECKS : List String := ["syntax", "tests"]

/-- `SessionLoop.MAX_VERIFY_RETRIES` — retry cap before force-accepting. -/
def MAX_VERIFY_RETRIES : Nat := 3

/-- `Validator.check_files_exist` against the set of files present on
disk (`existing`). -/
def check_files_exist (existing : List String) (file_paths : List String) :
    ValidationReport :=
  if file_paths = [] then
    { result := ValidationResult.skip, message := "No files to check" }
  else
    let missing := file_paths.filter (fun fp => ¬ fp ∈ existing)
    if missing ≠ [] then
      { result := ValidationResult.fail
        message := Nat.repr missing.length ++ " files missing: " ++
          String.intercalate ", " (missing.take 5) }
    else
      { result := ValidationResult.ok
        message := "All " ++ Nat.repr file_paths.length ++ " files exist" }

/-- The environment `_verify_session` reads: the validator's results
(`run_all`), the captured baseline, the loaded checkpoint, the set of
files on disk, the task document, and the oracle giving
`check_criteria`'s report for a criteria string (it runs external
commands). -/
structure VerifyEnv where
  val_results : List (String × ValidationReport)
  baseline : Option (List (String × BaselineEntry))
  checkpoint : Checkpoint
  existingFiles : List String
  taskData : TaskData
  criteriaReport : String → ValidationReport

/-- The dict returned by `SessionLoop._verify_session` (minus the summary
text, which only repeats these fields for display). -/
structure VerificationResult where
  passed : Bool
  force_accepted : Bool
  blocking_issues : List String
  warnings : List String
  retry_count : Nat
deriving Repr, DecidableEq

/-- One iteration of the validator loop of `_verify_session` (step 1):
skip non-failures, demote pre-existing failures to a warning, add new
failures of blocking checks (with a detail line) to the blocking issues,
and new failures of other checks to the warnings. -/
def checkStep (baseline : Option (List (String × BaselineEntry)))
    (bw : List String × List String) (nr : String × ValidationReport) :
    List String × List String :=
  let name := nr.1
  let report := nr.2
  if report.result.value ≠ "fail" then bw
  else if _is_new_issue baseline name = false then
    (bw.1, bw.2 ++ [name ++ ": " ++ report.message ++ " (pre-existing, skipped)"])
  else if name ∈ BLOCKING_CHECKS then
    (bw.1 ++ [name ++ ": " ++ report.message] ++
      (match report.details with
       | some d => ["  " ++ d.take 200]
       | none => []), bw.2)
  else
    (bw.1, bw.2 ++ [name ++ ": " ++ report.message])

/-- Step 1 of `_verify_session`: partition failing validator checks into
blocking issues and warnings, demoting pre-existing failures.  Returns
`(blocking_issues, warnings)` in emission order. -/
def checkPartition (val_results : List (String × ValidationReport))
    (baseline : Option (List (String × BaselineEntry))) :
    List String × List String :=
  val_results.foldl (checkStep baseline) ([], [])

/-- Step 2 of `_verify_session`: blocking issue from missing
`files_modified`. -/
def filesBlocking (env : VerifyEnv) : List String :=
  let files_modified := env.checkpoint.files_modified
  if files_modified ≠ [] then
    let files_report := check_files_exist env.existingFiles files_modified
    if files_report.result.value = "fail" then
      ["files: " ++ files_report.message]
    else []
  else []

/-- Step 3 of `_verify_session`: blocking issues from unmet success
criteria of done tasks. -/
def criteriaBlocking (env : VerifyEnv) : List String :=
  (get_tasks env.taskData (some "done")).foldl
    (fun acc task =>
      match task.success_criteria with
      | some c =>
        let criteria_report := env.criteriaReport c
        if criteria_report.result.value = "fail" then
          acc ++ [task.id ++ " criteria: " ++ criteria_report.message]
        else acc
      | none => acc)
    []

/-- Step 4 of `_verify_session`: blocking issue when the checkpoint says
COMPLETED but tasks are not all done. -/
def tasksBlocking (env : VerifyEnv) : List String :=
  if env.checkpoint.status = "COMPLETED" then
    let dt := get_progress env.taskData
    if dt.1 < dt.2 then
      ["tasks: Only " ++ Nat.repr dt.1 ++ "/" ++ Nat.repr dt.2 ++
        " done but checkpoint says COMPLETED"]
    else []
  else []

/-- Step 5 of `_verify_session`: the previous retry count —
`last_ver.get("retry_count", 0) if not last_ver.get("passed", True) else 0`. -/
def prevRetry (cp : Checkpoint) : Nat :=
  match cp.last_verification with
  | none => 0
  | some lv => if lv.passed then 0 else lv.retry_count

/-- The warning appended on force-accept:
`f"MAX RETRIES ({MAX_VERIFY_RETRIES}) reached — accepting with issues"`. -/
def maxRetriesWarning : String :=
  "MAX RETRIES (" ++ Nat.repr MAX_VERIFY_RETRIES ++ ") reached — accepting with issues"

/-- The full `blocking_issues` list assembled by `_verify_session`
(steps 1-4, in emission order). -/
def verifyBlocking (env : VerifyEnv) : List String :=
  (checkPartition env.val_results env.baseline).1 ++
    filesBlocking env ++ criteriaBlocking env ++ tasksBlocking env

/-- Step 5 of `_verify_session`:
`retry_count = prev_retry + 1 if blocking_issues else 0`. -/
def verifyRetryCount (env : VerifyEnv) : Nat :=
  if verifyBlocking env ≠ [] then prevRetry env.checkpoint + 1 else 0

/-- Step 6 of `_verify_session`: force-accept when blocking issues remain
and the retry counter has reached `MAX_VERIFY_RETRIES`. -/
def verifyForce (env : VerifyEnv) : Bool :=
  decide (verifyBlocking env ≠ []) &&
    decide (MAX_VERIFY_RETRIES ≤ verifyRetryCount env)

/-- `SessionLoop._verify_session`: run the checks partition, add the
files / criteria / tasks blocking issues, compute the retry counter from
the checkpoint, force-accept at the retry cap (appending the MAX RETRIES
warning), and set `passed = (no blocking issues) or force_accepted`. -/
def _verify_session (env : VerifyEnv) : VerificationResult :=
  { passed := decide (verifyBlocking env = []) || verifyForce env
    force_accepted := verifyForce env
    blocking_issues := verifyBlocking env
    warnings := (checkPartition env.val_results env.baseline).2 ++
      (if verifyForce env then [maxRetriesWarning] else [])
    retry_count := verifyRetryCount env }

/-- The `last_verification` record written by `SessionLoop.start` when the
checkpoint claims COMPLETED but verification failed (it always stores
`passed: False`), together with the status reset to WORKING. -/
def writeFailedVerification (cp : Checkpoint) (v : VerificationResult) :
    Checkpoint :=
  { cp with
    status := "WORKING"
    last_verification := some
      { passed := false
        blocking_issues := v.blocking_issues
        warnings := v.warnings
        retry_count := v.retry_count
        session := cp.session } }

/-! ### Context-window guard (`src/a1/loop.py`, `_parse_stream_event` /
`_run_claude_max`) -/

/-- `SessionLoop.CONTEXT_WINDOW_SIZE` (tokens). -/
def CONTEXT_WINDOW_SIZE : Nat := 200000

/-- `SessionLoop.CONTEXT_THRESHOLD` (fraction of the window). -/
def CONTEXT_THRESHOLD : ℚ := 0.70

/-- The live metric state that the `rate_limit_event` branch of
`_parse_stream_event` reads and writes: the token counters of
`_session_metrics`, the computed `_context_percent`, and the
`_context_overflow` latch. -/
structure StreamState where
  tokens_in : Nat
  tokens_out : Nat
  cache_read : Nat
  cache_creation : Nat
  context_percent : ℚ
  context_overflow : Bool
deriving Repr, DecidableEq

/-- The `usage` payload of a `rate_limit_event`: `hasUsage` is the Python
truthiness of the dict, the other fields are its optional entries
(`usage.get(..., previous)` keeps the previous counter when absent). -/
structure UsageEvent where
  hasUsage : Bool
  input_tokens : Option Nat := none
  output_tokens : Option Nat := none
  cache_read_input_tokens : Option Nat := none
  cache_creation_input_tokens : Option Nat := none
deriving Repr, DecidableEq

/-- One `rate_limit_event` through `_parse_stream_event`: update the
counters, recompute `context_percent = tokens_in / CONTEXT_WINDOW_SIZE`,
and fire the auto-checkpoint guard (returned boolean) exactly when the
threshold is reached while `_context_overflow` is still unset, latching
the flag. -/
def rateLimitStep (s : StreamState) (e : UsageEvent) : StreamState × Bool :=
  if e.hasUsage then
    let tokens_in := e.input_tokens.getD s.tokens_in
    let tokens_out := e.output_tokens.getD s.tokens_out
    let cache_read := e.cache_read_input_tokens.getD s.cache_read
    let cache_creation := e.cache_creation_input_tokens.getD s.cache_creation
    let context_percent : ℚ := (tokens_in : ℚ) / (CONTEXT_WINDOW_SIZE : ℚ)
    let reached := decide (CONTEXT_THRESHOLD ≤ context_percent)
    let fires := reached && !s.context_overflow
    ({ tokens_in := tokens_in
       tokens_out := tokens_out
       cache_read := cache_read
       cache_creation := cache_creation
       context_percent := context_percent
       context_overflow := s.context_overflow || reached }, fires)
  else
    (s, false)

/-- The state reset performed at the start of every session by
`_run_claude_max` (fresh `_session_metrics`, `_context_overflow = False`,
`_context_percent = 0.0`). -/
def sessionInit : StreamState :=
  { tokens_in := 0
    tokens_out := 0
    cache_read := 0
    cache_creation := 0
    context_percent := 0
    context_overflow := false }

/-- Whether a usage report, processed in state `s`, is at or above the
context threshold (regardless of the overflow latch). -/
def reached (s : StreamState) (e : UsageEvent) : Bool :=
  e.hasUsage &&
    decide (CONTEXT_THRESHOLD ≤ ((e.input_tokens.getD s.tokens_in : ℚ) / (CONTEXT_WINDOW_SIZE : ℚ)))

/-- The guard-fired flag of each successive usage report of a session. -/
def fireFlags (s : StreamState) : List UsageEvent → List Bool
  | [] => []
  | e :: es =>
    let r := rateLimitStep s e
    r.2 :: fireFlags r.1 es

/-- The at-or-above-threshold flag of each successive usage report. -/
def reachedFlags (s : StreamState) : List UsageEvent → List Bool
  | [] => []
  | e :: es =>
    let r := rateLimitStep s e
    reached s e :: reachedFlags r.1 es

/-- Keep only the first `true` of a boolean list. -/
def markFirst : List Bool → List Bool
  | [] => []
  | b :: bs => if b then true :: bs.map (fun _ => false) else false :: markFirst bs

/-! ### Concrete states used as witnesses and counterexamples -/

/-- A concrete checkpoint used in the archive counterexample. -/
def cexCheckpoint : Checkpoint := _create_initial "t0"

/-- The file-system state after a first `save` of `cexCheckpoint` into an
empty store: the archive already holds `session_000.json`. -/
def cexFS1 : CheckpointFS :=
  save { checkpoint_file := FileState.missing, archive := [] } cexCheckpoint "t1"

/-- A concrete task store for the not-found update witness.  Its task has
a nonzero priority, so loading it performs no migration. -/
def c10Data : TaskData :=
  { raw_thoughts := []
    tasks := [{ id := "task_001", title := "a", priority := 1 }]
    next_id := 2 }

/-- A store whose only task still has the default zero priority, so
`_load_data` migrates and saves it. -/
def c10MigData : TaskData :=
  { raw_thoughts := []
    tasks := [{ id := "task_001", title := "a", priority := 0 }]
    next_id := 2 }

/-- A concrete verification environment: `tests` newly failing, previous
verification failed with `retry_count = 1`. -/
def c4Env : VerifyEnv :=
  { val_results :=
      [("syntax", { result := ValidationResult.ok, message := "Syntax OK (2 files)" }),
       ("tests", { result := ValidationResult.fail, message := "Tests failed" })]
    baseline := some
      [("syntax", { result := "ok", message := "Syntax OK (2 files)" }),
       ("tests", { result := "ok", message := "All tests passed" })]
    checkpoint :=
      { _create_initial "t0" with
        status := "WORKING"
        session := 2
        last_verification := some
          { passed := false
            blocking_issues := ["tests: Tests failed"]
            warnings := []
            retry_count := 1
            session := 1 } }
    existingFiles := []
    taskData := { raw_thoughts := [], tasks := [], next_id := 1 }
    criteriaReport := fun _ => { result := ValidationResult.skip, message := "" } }

/-- The validation results and baseline of the force-accept scenario: the
`tests` check fails anew in every session (the baseline recorded it as
passing), everything else is clean; the common parts of the environment
are fixed and only the checkpoint varies between evaluations. -/
def c1EnvAt (cp : Checkpoint) : VerifyEnv :=
  { val_results :=
      [("syntax", { result := ValidationResult.ok, message := "Syntax OK (3 files)" }),
       ("tests", { result := ValidationResult.fail, message := "Tests failed" }),
       ("lint", { result := ValidationResult.ok, message := "Lint passed" }),
       ("build", { result := ValidationResult.skip, message := "No build config found" })]
    baseline := some
      [("syntax", { result := "ok", message := "Syntax OK (3 files)" }),
       ("tests", { result := "ok", message := "All tests passed" }),
       ("lint", { result := "ok", message := "Lint passed" }),
       ("build", { result := "skip", message := "No build config found" })]
    checkpoint := cp
    existingFiles := []
    taskData := { raw_thoughts := [], tasks := [], next_id := 1 }
    criteriaReport := fun _ => { result := ValidationResult.skip, message := "" } }

/-- Checkpoint before the first evaluation of the scenario: the agent
claims completion in session 1, no verification has run yet. -/
def c1Checkpoint0 : Checkpoint :=
  { _create_initial "t0" with status := "COMPLETED", session := 1 }

/-- Checkpoint before the second evaluation: `SessionLoop.start` recorded
the first failed verification, and the agent claims completion again. -/
def c1Checkpoint1 : Checkpoint :=
  { writeFailedVerification c1Checkpoint0 (_verify_session (c1EnvAt c1Checkpoint0)) with
    status := "COMPLETED", session := 2 }

/-- Checkpoint before the third evaluation of the scenario. -/
def c1Checkpoint2 : Checkpoint :=
  { writeFailedVerification c1Checkpoint1 (_verify_session (c1EnvAt c1Checkpoint1)) with
    status := "COMPLETED", session := 3 }

/-- An environment in which the `lint` check fails but the baseline
already recorded `lint` as failing before the first session. -/
def c2Env : VerifyEnv :=
  { val_results :=
      [("syntax", { result := ValidationResult.ok, message := "Syntax OK (3 files)" }),
       ("tests", { result := ValidationResult.ok, message := "All tests passed" }),
       ("lint", { result := ValidationResult.fail, message := "Lint issues: 3" }),
       ("build", { result := ValidationResult.skip, message := "No build config found" })]
    baseline := some
      [("syntax", { result := "ok", message := "Syntax OK (3 files)" }),
       ("tests", { result := "ok", message := "All tests passed" }),
       ("lint", { result := "fail", message := "Lint issues: 3" }),
       ("build", { result := "skip", message := "No build config found" })]
    checkpoint := { _create_initial "t0" with status := "WORKING", session := 1 }
    existingFiles := []
    taskData := { raw_thoughts := [], tasks := [], next_id := 1 }
    criteriaReport := fun _ => { result := ValidationResult.skip, message := "" } }

/-- The interrupted task of the next-task scenario: `in_progress` at
priority 5. -/
def c7InProgress : Task :=
  { id := "task_003", title := "resume me", status := "in_progress", priority := 5 }

/-- A store with one `in_progress` task at priority 5 and two `pending`
tasks at priorities 1 and 2. -/
def c7Data : TaskData :=
  { raw_thoughts := []
    tasks :=
      [{ id := "task_001", title := "p1", status := "pending", priority := 1 },
       { id := "task_002", title := "p2", status := "pending", priority := 2 },
       c7InProgress]
    next_id := 4 }

/-- A store with three tasks at priorities 1, 2, 3, used in the reorder
witness. -/
def c8Data : TaskData :=
  { raw_thoughts := []
    tasks :=
      [{ id := "task_001", title := "a", priority := 1 },
       { id := "task_002", title := "b", priority := 2 },
       { id := "task_003", title := "c", priority := 3 }]
    next_id := 4 }

/-- The reorder request of the witness: `task_003` first, `task_001`
second. -/
def c8Ids : List String := ["task_003", "task_001"]

/-! ### Helper lemmas -/

instance : IsTotal Task taskLE :=
  ⟨fun a b => le_total a.priority b.priority⟩

instance : IsTrans Task taskLE :=
  ⟨fun _ _ _ hab hbc => le_trans hab hbc⟩

theorem lookupArchive_setArchive (archive : List (Nat × Checkpoint)) (k : Nat)
    (v : Checkpoint) : lookupArchive (setArchive archive k v) k = some v := by
  induction archive with
  | nil => simp [setArchive, lookupArchive]
  | cons hd tl ih =>
    by_cases h : hd.1 = k
    · simp [setArchive, lookupArchive, h]
    · simpa [setArchive, lookupArchive, h] using ih

theorem length_setArchive_of_fresh (archive : List (Nat × Checkpoint)) (k : Nat)
    (v : Checkpoint) (h : ∀ e ∈ archive, e.1 ≠ k) :
    (setArchive archive k v).length = archive.length + 1 := by
  induction archive with
  | nil => simp [setArchive]
  | cons hd tl ih =>
    have hhd : hd.1 ≠ k := h hd (List.mem_cons_self hd tl)
    have htl : ∀ e ∈ tl, e.1 ≠ k := fun e he => h e (List.mem_cons_of_mem hd he)
    simp [setArchive, hhd, ih htl]

theorem updateFirst_eq_none {task_id : String} {u : Task → Task} :
    ∀ ts : List Task, task_id ∉ ts.map Task.id → updateFirst task_id u ts = none := by
  intro ts
  induction ts with
  | nil => intro _; rfl
  | cons t rest ih =>
    intro h
    have h1 : t.id ≠ task_id := by
      intro he
      exact h (by simp [he])
    have h2 : task_id ∉ rest.map Task.id := by
      intro hm
      exact h (by simp [hm])
    simp [updateFirst, h1, ih h2]

/-! ### Claims -/

/-- C9: on every on-disk state in which the checkpoint document is missing
or unparsable, `load()` returns the default initial checkpoint record.
`load` is a total function of the modelled file state, so no exception is
possible. -/
theorem load_missing_or_malformed_returns_initial (fs : CheckpointFS) (now : String)
    (h : fs.checkpoint_file = FileState.missing ∨ fs.checkpoint_file = FileState.malformed) :
    load fs now = _create_initial now := by
  rcases h with h | h <;> simp [load, h]

/-- C9 witness: a malformed checkpoint file loads as the initial record. -/
theorem load_missing_or_malformed_returns_initial_witness :
    load { checkpoint_file := FileState.malformed, archive := [] } "t0" = _create_initial "t0" :=
  load_missing_or_malformed_returns_initial
    { checkpoint_file := FileState.malformed, archive := [] } "t0" (Or.inr rfl)

theorem migrateTasks_map_id :
    ∀ (ts : List Task) (i : Nat), (migrateTasks i ts).map Task.id = ts.map Task.id := by
  intro ts
  induction ts with
  | nil => intro i; rfl
  | cons t rest ih =>
    intro i
    by_cases h : t.priority = 0 <;> simp [migrateTasks, h, ih]

/-- C10 counterexample: updating an absent id of a store whose task still
has the default zero priority returns `None`, but `_load_data`'s priority
migration writes the tasks document, so the persisted store changes and a
write occurs on the not-found path. -/
theorem update_task_not_found_write_cex :
    (update_task c10MigData "task_999" (fun t => { t with status := "done" })).2.1 = none ∧
    (update_task c10MigData "task_999" (fun t => { t with status := "done" })).1 ≠ c10MigData ∧
    (update_task c10MigData "task_999" (fun t => { t with status := "done" })).2.2 = 1 := by
  decide

/-- C10 (amended): updating a task id that is not present returns `None`,
and the only possible write is the priority migration performed by
`_load_data`: when some task has a missing/zero priority the persisted
document is the migrated one (exactly one write), and when no migration
is needed no write occurs and the persisted store is completely
unchanged. -/
theorem update_task_not_found_migration (stored : TaskData) (task_id : String)
    (u : Task → Task) (h : task_id ∉ stored.tasks.map Task.id) :
    update_task stored task_id u =
      (if needsMigration stored then (_load_data stored).1 else stored, none,
        if needsMigration stored then 1 else 0) := by
  have hm : task_id ∉ (migrateTasks 0 stored.tasks).map Task.id := by
    rw [migrateTasks_map_id]
    exact h
  have hfirst : updateFirst task_id u (migrateTasks 0 stored.tasks) = none :=
    updateFirst_eq_none (migrateTasks 0 stored.tasks) hm
  show (match updateFirst task_id u (migrateTasks 0 stored.tasks) with
    | some (ts', t') =>
      ({ (_load_data stored).1 with tasks := ts' }, some t',
        (if needsMigration stored then 1 else 0) + 1)
    | none => ((if needsMigration stored then (_load_data stored).1 else stored), none,
        if needsMigration stored then 1 else 0)) = _
  rw [hfirst]

/-- C10 witness: updating the absent id `task_999` of a store that needs
no migration returns `None` with no write at all and an unchanged store. -/
theorem update_task_not_found_migration_witness :
    (update_task c10Data "task_999" (fun t => { t with status := "done" }) =
      (if needsMigration c10Data then (_load_data c10Data).1 else c10Data, none,
        if needsMigration c10Data then 1 else 0)) ∧
    update_task c10Data "task_999" (fun t => { t with status := "done" }) =
      (c10Data, none, 0) :=
  ⟨update_task_not_found_migration c10Data "task_999"
      (fun t => { t with status := "done" }) (by decide),
    by decide⟩

/-- C5 counterexample: saving a checkpoint whose session number already has
an archive entry overwrites that entry and creates no new one, so a save
does NOT always create exactly one new archive entry. -/
theorem save_existing_session_no_new_entry_cex :
    cexFS1.archive.length = 1 ∧
    (save cexFS1 cexCheckpoint "t2").archive.length = 1 ∧
    ¬ (save cexFS1 cexCheckpoint "t2").archive.length = cexFS1.archive.length + 1 := by
  refine ⟨rfl, rfl, ?_⟩
  decide

/-- C5 (amended): `save(checkpoint)` followed by `load()` returns the saved
value, which differs from the input only in `updated_at`; the archive
entry keyed by the checkpoint's session number holds that value; and when
no archive entry for that session number existed before, exactly one new
archive entry is created. -/
theorem save_load_roundtrip_fresh_session (fs : CheckpointFS) (cp : Checkpoint)
    (now now2 : String) (h : ∀ e ∈ fs.archive, e.1 ≠ cp.session) :
    load (save fs cp now) now2 = { cp with updated_at := now } ∧
    lookupArchive (save fs cp now).archive cp.session = some { cp with updated_at := now } ∧
    (save fs cp now).archive.length = fs.archive.length + 1 := by
  refine ⟨rfl, ?_, ?_⟩
  · exact lookupArchive_setArchive fs.archive cp.session { cp with updated_at := now }
  · exact length_setArchive_of_fresh fs.archive cp.session { cp with updated_at := now } h

/-- C5 witness: a save into an empty store round-trips through `load` and
creates one archive entry named by the session number. -/
theorem save_load_roundtrip_fresh_session_witness :
    load (save { checkpoint_file := FileState.missing, archive := [] } cexCheckpoint "t1") "t2" =
      { cexCheckpoint with updated_at := "t1" } ∧
    lookupArchive
      (save { checkpoint_file := FileState.missing, archive := [] } cexCheckpoint "t1").archive
      cexCheckpoint.session = some { cexCheckpoint with updated_at := "t1" } ∧
    (save { checkpoint_file := FileState.missing, archive := [] } cexCheckpoint "t1").archive.length =
      ([] : List (Nat × Checkpoint)).length + 1 :=
  save_load_roundtrip_fresh_session
    { checkpoint_file := FileState.missing, archive := [] } cexCheckpoint "t1" "t2"
    (by intro e he; cases he)

/-- C4: the retry counter of a verification evaluation is the previous
result's `retry_count` read from the checkpoint plus one when the current
attempt still has blocking issues, and zero otherwise.  The hypothesis
states the invariant maintained by `SessionLoop.start`, which only ever
stores `last_verification` records with `passed = False`. -/
theorem retry_counter_from_checkpoint (env : VerifyEnv)
    (h : env.checkpoint.last_verification = none ∨
      ∃ lv, env.checkpoint.last_verification = some lv ∧ lv.passed = false) :
    (_verify_session env).retry_count =
      if (_verify_session env).blocking_issues ≠ [] then
        (match env.checkpoint.last_verification with
         | none => 0
         | some lv => lv.retry_count) + 1
      else 0 := by
  have hprev : prevRetry env.checkpoint =
      (match env.checkpoint.last_verification with
       | none => 0
       | some lv => lv.retry_count) := by
    rcases h with h | ⟨lv, hl, hp⟩
    · simp [prevRetry, h]
    · simp [prevRetry, hl, hp]
  show (if (_verify_session env).blocking_issues ≠ [] then prevRetry env.checkpoint + 1 else 0) = _
  rw [hprev]

/-- C4 witness: with a stored failing verification of `retry_count = 1`
and a still-failing `tests` check, the new retry counter is 2. -/
theorem retry_counter_from_checkpoint_witness :
    ((_verify_session c4Env).retry_count =
      if (_verify_session c4Env).blocking_issues ≠ [] then 1 + 1 else 0) ∧
    (_verify_session c4Env).retry_count = 2 :=
  ⟨retry_counter_from_checkpoint c4Env (Or.inr ⟨_, rfl, rfl⟩), by decide⟩

theorem rateLimitStep_of_overflow {s : StreamState} (e : UsageEvent)
    (h : s.context_overflow = true) :
    (rateLimitStep s e).1.context_overflow = true ∧ (rateLimitStep s e).2 = false := by
  by_cases he : e.hasUsage <;> simp [rateLimitStep, he, h]

theorem fireFlags_of_overflow :
    ∀ (es : List UsageEvent) (s : StreamState), s.context_overflow = true →
      fireFlags s es = es.map (fun _ => false) := by
  intro es
  induction es with
  | nil => intro s _; rfl
  | cons e es ih =>
    intro s h
    have hs := rateLimitStep_of_overflow e h
    simp [fireFlags, hs.2, ih _ hs.1]

theorem reachedFlags_length :
    ∀ (es : List UsageEvent) (s : StreamState), (reachedFlags s es).length = es.length := by
  intro es
  induction es with
  | nil => intro s; rfl
  | cons e es ih => intro s; simp [reachedFlags, ih]

theorem rateLimitStep_fires_eq_reached {s : StreamState} (e : UsageEvent)
    (h : s.context_overflow = false) :
    (rateLimitStep s e).2 = reached s e := by
  by_cases he : e.hasUsage <;> simp [rateLimitStep, reached, he, h]

theorem rateLimitStep_overflow_eq_reached {s : StreamState} (e : UsageEvent)
    (h : s.context_overflow = false) :
    (rateLimitStep s e).1.context_overflow = reached s e := by
  by_cases he : e.hasUsage <;> simp [rateLimitStep, reached, he, h]

theorem map_false_eq_replicate {α : Type} :
    ∀ l : List α, l.map (fun _ => false) = List.replicate l.length false := by
  intro l
  induction l with
  | nil => rfl
  | cons x xs ih => simp [ih, List.replicate_succ]

theorem fireFlags_eq_markFirst_reached :
    ∀ (es : List UsageEvent) (s : StreamState), s.context_overflow = false →
      fireFlags s es = markFirst (reachedFlags s es) := by
  intro es
  induction es with
  | nil => intro s _; rfl
  | cons e es ih =>
    intro s h
    by_cases hr : reached s e = true
    · have hov : (rateLimitStep s e).1.context_overflow = true := by
        rw [rateLimitStep_overflow_eq_reached e h, hr]
      have h1 : fireFlags (rateLimitStep s e).1 es = es.map (fun _ => false) :=
        fireFlags_of_overflow es _ hov
      simp [fireFlags, reachedFlags, markFirst, rateLimitStep_fires_eq_reached e h, hr, h1,
        map_false_eq_replicate, reachedFlags_length]
    · have hr' : reached s e = false := by simpa using hr
      have hov : (rateLimitStep s e).1.context_overflow = false := by
        rw [rateLimitStep_overflow_eq_reached e h, hr']
      simp [fireFlags, reachedFlags, markFirst, rateLimitStep_fires_eq_reached e h, hr',
        ih _ hov]

theorem count_true_map_false {α : Type} (l : List α) :
    (l.map (fun _ => false)).count true = 0 := by
  rw [List.count_eq_zero]
  simp

theorem count_true_replicate_false (n : Nat) :
    (List.replicate n false).count true = 0 := by
  rw [List.count_eq_zero]
  simp

theorem count_markFirst_le_one : ∀ l : List Bool, (markFirst l).count true ≤ 1 := by
  intro l
  induction l with
  | nil => simp [markFirst]
  | cons b bs ih =>
    by_cases hb : b = true
    · simp [markFirst, hb, count_true_map_false, count_true_replicate_false]
    · have hb' : b = false := by simpa using hb
      simpa [markFirst, hb'] using ih

theorem count_markFirst_eq_one_iff :
    ∀ l : List Bool, (markFirst l).count true = 1 ↔ true ∈ l := by
  intro l
  induction l with
  | nil => simp [markFirst]
  | cons b bs ih =>
    by_cases hb : b = true
    · simp [markFirst, hb, count_true_map_false, count_true_replicate_false]
    · have hb' : b = false := by simpa using hb
      simpa [markFirst, hb'] using ih

theorem checkStep_fst_congr (baseline : Option (List (String × BaselineEntry)))
    (acc acc' : List String × List String) (p : String × ValidationReport)
    (h : acc.1 = acc'.1) :
    (checkStep baseline acc p).1 = (checkStep baseline acc' p).1 := by
  by_cases h1 : p.2.result.value ≠ "fail" <;>
    by_cases h2 : _is_new_issue baseline p.1 = false <;>
    by_cases h3 : p.1 ∈ BLOCKING_CHECKS <;>
    simp [checkStep, h1, h2, h3, h]

theorem foldl_checkStep_fst_congr (baseline : Option (List (String × BaselineEntry))) :
    ∀ (l : List (String × ValidationReport)) (acc acc' : List String × List String),
      acc.1 = acc'.1 →
      (List.foldl (checkStep baseline) acc l).1 = (List.foldl (checkStep baseline) acc' l).1 := by
  intro l
  induction l with
  | nil => intro acc acc' h; exact h
  | cons p l ih =>
    intro acc acc' h
    exact ih (checkStep baseline acc p) (checkStep baseline acc' p)
      (checkStep_fst_congr baseline acc acc' p h)

theorem checkStep_fst_of_preexisting (baseline : Option (List (String × BaselineEntry)))
    (acc : List String × List String) (p : String × ValidationReport)
    (hnew : _is_new_issue baseline p.1 = false) :
    (checkStep baseline acc p).1 = acc.1 := by
  by_cases h1 : p.2.result.value ≠ "fail" <;> simp [checkStep, h1, hnew]

theorem foldl_checkStep_filter_preexisting
    (baseline : Option (List (String × BaselineEntry))) (name : String)
    (hnew : _is_new_issue baseline name = false) :
    ∀ (l : List (String × ValidationReport)) (acc : List String × List String),
      (List.foldl (checkStep baseline) acc l).1 =
        (List.foldl (checkStep baseline) acc (l.filter (fun p => p.1 ≠ name))).1 := by
  intro l
  induction l with
  | nil => intro acc; rfl
  | cons p l ih =>
    intro acc
    by_cases hp : p.1 = name
    · have hdrop : (p :: l).filter (fun p => p.1 ≠ name) = l.filter (fun p => p.1 ≠ name) := by
        simp [List.filter_cons, hp]
      rw [hdrop, List.foldl_cons]
      have hstep : (checkStep baseline acc p).1 = acc.1 :=
        checkStep_fst_of_preexisting baseline acc p (hp ▸ hnew)
      rw [foldl_checkStep_fst_congr baseline l (checkStep baseline acc p) acc hstep]
      exact ih acc
    · have hkeep : (p :: l).filter (fun p => p.1 ≠ name) =
          p :: l.filter (fun p => p.1 ≠ name) := by
        simp [List.filter_cons, hp]
      rw [hkeep, List.foldl_cons, List.foldl_cons]
      exact ih (checkStep baseline acc p)

theorem checkStep_snd_mono (baseline : Option (List (String × BaselineEntry)))
    (acc : List String × List String) (p : String × ValidationReport) (x : String)
    (h : x ∈ acc.2) : x ∈ (checkStep baseline acc p).2 := by
  by_cases h1 : p.2.result.value ≠ "fail" <;>
    by_cases h2 : _is_new_issue baseline p.1 = false <;>
    by_cases h3 : p.1 ∈ BLOCKING_CHECKS <;>
    simp [checkStep, h1, h2, h3, h]

theorem foldl_checkStep_snd_mono (baseline : Option (List (String × BaselineEntry))) :
    ∀ (l : List (String × ValidationReport)) (acc : List String × List String) (x : String),
      x ∈ acc.2 → x ∈ (List.foldl (checkStep baseline) acc l).2 := by
  intro l
  induction l with
  | nil => intro acc x h; exact h
  | cons p l ih =>
    intro acc x h
    exact ih (checkStep baseline acc p) x (checkStep_snd_mono baseline acc p x h)

theorem foldl_checkStep_preexisting_warning
    (baseline : Option (List (String × BaselineEntry))) (name : String)
    (report : ValidationReport) (hfail : report.result = ValidationResult.fail)
    (hnew : _is_new_issue baseline name = false) :
    ∀ (l : List (String × ValidationReport)) (acc : List String × List String),
      (name, report) ∈ l →
      (name ++ ": " ++ report.message ++ " (pre-existing, skipped)") ∈
        (List.foldl (checkStep baseline) acc l).2 := by
  intro l
  induction l with
  | nil => intro acc h; cases h
  | cons p l ih =>
    intro acc h
    rcases List.mem_cons.mp h with h | h
    · subst h
      rw [List.foldl_cons]
      apply foldl_checkStep_snd_mono
      have hval : report.result.value = "fail" := by rw [hfail]; rfl
      simp [checkStep, hval, hnew]
    · exact ih (checkStep baseline acc p) h

/-- C2: a check that fails in the current session but was already recorded
as failing in the baseline is demoted: its pre-existing warning appears in
`warnings`, and `blocking_issues` is exactly what verification computes
with that check removed from the validator results — the check
contributes nothing to `blocking_issues`. -/
theorem preexisting_failure_demoted (env : VerifyEnv) (name : String)
    (report : ValidationReport)
    (hmem : (name, report) ∈ env.val_results)
    (hfail : report.result = ValidationResult.fail)
    (hbase : ∃ b, env.baseline = some b ∧
      ∃ e, lookupStr b name = some e ∧ e.result = "fail") :
    (name ++ ": " ++ report.message ++ " (pre-existing, skipped)") ∈
      (_verify_session env).warnings ∧
    (_verify_session env).blocking_issues =
      (checkPartition (env.val_results.filter (fun p => p.1 ≠ name)) env.baseline).1 ++
        filesBlocking env ++ criteriaBlocking env ++ tasksBlocking env := by
  obtain ⟨b, hb, e, he, hr⟩ := hbase
  have hbne : b ≠ [] := by
    intro h0
    rw [h0] at he
    cases he
  have hnew : _is_new_issue env.baseline name = false := by
    rw [hb]
    simp [_is_new_issue, hbne, he, hr]
  constructor
  · show (name ++ ": " ++ report.message ++ " (pre-existing, skipped)") ∈
      (checkPartition env.val_results env.baseline).2 ++
        (if verifyForce env then [maxRetriesWarning] else [])
    apply List.mem_append_left
    exact foldl_checkStep_preexisting_warning env.baseline name report hfail hnew
      env.val_results ([], []) hmem
  · show verifyBlocking env = _
    unfold verifyBlocking checkPartition
    rw [foldl_checkStep_filter_preexisting env.baseline name hnew env.val_results ([], [])]

/-- C2 witness: a `lint` failure already failing in the baseline never
blocks — it is reported as a pre-existing warning, and the blocking
issues are those computed without the `lint` entry (here: none). -/
theorem preexisting_failure_demoted_witness :
    (("lint" ++ ": " ++ "Lint issues: 3" ++ " (pre-existing, skipped)") ∈
      (_verify_session c2Env).warnings ∧
    (_verify_session c2Env).blocking_issues =
      (checkPartition (c2Env.val_results.filter (fun p => p.1 ≠ "lint")) c2Env.baseline).1 ++
        filesBlocking c2Env ++ criteriaBlocking c2Env ++ tasksBlocking c2Env) ∧
    (_verify_session c2Env).blocking_issues = [] :=
  ⟨preexisting_failure_demoted c2Env "lint"
      { result := ValidationResult.fail, message := "Lint issues: 3" }
      (by decide) rfl
      ⟨_, rfl, { result := "fail", message := "Lint issues: 3" }, by decide, rfl⟩,
    by decide⟩

theorem head_insertionSort_min (l : List Task) (hne : l ≠ []) :
    ∃ u, (List.insertionSort taskLE l).head? = some u ∧ u ∈ l ∧
      ∀ v ∈ l, u.priority ≤ v.priority := by
  cases hs : List.insertionSort taskLE l with
  | nil =>
    exfalso
    have hp := List.perm_insertionSort taskLE l
    rw [hs] at hp
    exact hne hp.symm.eq_nil
  | cons u rest =>
    refine ⟨u, rfl, ?_, ?_⟩
    · have hu : u ∈ List.insertionSort taskLE l := by
        rw [hs]
        exact List.mem_cons_self u rest
      exact (List.mem_insertionSort taskLE).mp hu
    · intro v hv
      have hvs : v ∈ List.insertionSort taskLE l := (List.mem_insertionSort taskLE).mpr hv
      have hsorted := List.sorted_insertionSort taskLE l
      rw [hs] at hvs hsorted
      rcases List.mem_cons.mp hvs with rfl | hvr
      · exact le_refl _
      · exact (List.sorted_cons.mp hsorted).1 v hvr

/-- C7: whenever any `in_progress` task exists, `get_next_task` returns an
`in_progress` task of minimal priority (pending tasks with better
priorities do not win); when none exists, it returns a minimal-priority
`pending` task; and on the concrete store with one `in_progress` task at
priority 5 and pending tasks at priorities 1 and 2 it returns the
`in_progress` task. -/
theorem next_task_prefers_in_progress :
    (∀ data : TaskData, (∃ t ∈ data.tasks, t.status = "in_progress") →
      ∃ u, get_next_task data = some u ∧ u ∈ data.tasks ∧ u.status = "in_progress" ∧
        ∀ v ∈ data.tasks, v.status = "in_progress" → u.priority ≤ v.priority) ∧
    (∀ data : TaskData, (∀ t ∈ data.tasks, t.status ≠ "in_progress") →
      (∃ t ∈ data.tasks, t.status = "pending") →
      ∃ u, get_next_task data = some u ∧ u ∈ data.tasks ∧ u.status = "pending" ∧
        ∀ v ∈ data.tasks, v.status = "pending" → u.priority ≤ v.priority) ∧
    get_next_task c7Data = some c7InProgress := by
  refine ⟨?_, ?_, by decide⟩
  · rintro data ⟨t, ht, hst⟩
    have hform : get_tasks data (some "in_progress") =
        data.tasks.filter (fun x => x.status = "in_progress") := rfl
    have htm : t ∈ get_tasks data (some "in_progress") := by
      rw [hform]
      exact List.mem_filter.mpr ⟨ht, by simp [hst]⟩
    have hne : get_tasks data (some "in_progress") ≠ [] := List.ne_nil_of_mem htm
    obtain ⟨u, hu, hmem, hmin⟩ := head_insertionSort_min _ hne
    have humem := List.mem_filter.mp (hform ▸ hmem)
    refine ⟨u, ?_, humem.1, by simpa using humem.2, ?_⟩
    · show (if get_tasks data (some "in_progress") ≠ [] then
          (List.insertionSort taskLE (get_tasks data (some "in_progress"))).head?
        else _) = some u
      rw [if_pos hne]
      exact hu
    · intro v hv hvst
      exact hmin v (hform ▸ List.mem_filter.mpr ⟨hv, by simp [hvst]⟩)
  · rintro data hnone ⟨t, ht, hst⟩
    have hnil : get_tasks data (some "in_progress") = [] := by
      show data.tasks.filter (fun x => x.status = "in_progress") = []
      rw [List.filter_eq_nil_iff]
      intro a ha
      simp [hnone a ha]
    have hform : get_tasks data (some "pending") =
        data.tasks.filter (fun x => x.status = "pending") := rfl
    have htm : t ∈ get_tasks data (some "pending") := by
      rw [hform]
      exact List.mem_filter.mpr ⟨ht, by simp [hst]⟩
    have hne : get_tasks data (some "pending") ≠ [] := List.ne_nil_of_mem htm
    obtain ⟨u, hu, hmem, hmin⟩ := head_insertionSort_min _ hne
    have humem := List.mem_filter.mp (hform ▸ hmem)
    refine ⟨u, ?_, humem.1, by simpa using humem.2, ?_⟩
    · show (if get_tasks data (some "in_progress") ≠ [] then _ else
        (if get_tasks data (some "pending") ≠ [] then
          (List.insertionSort taskLE (get_tasks data (some "pending"))).head?
        else none)) = some u
      rw [if_neg (by simp [hnil]), if_pos hne]
      exact hu
    · intro v hv hvst
      exact hmin v (hform ▸ List.mem_filter.mpr ⟨hv, by simp [hvst]⟩)

/-- C7 witness: the concrete store of the scenario has an `in_progress`
task, and `get_next_task` returns an `in_progress` task of minimal
priority. -/
theorem next_task_prefers_in_progress_witness :
    ∃ u, get_next_task c7Data = some u ∧ u ∈ c7Data.tasks ∧ u.status = "in_progress" ∧
      ∀ v ∈ c7Data.tasks, v.status = "in_progress" → u.priority ≤ v.priority :=
  next_task_prefers_in_progress.1 c7Data ⟨c7InProgress, by decide, rfl⟩

theorem toDigitsCore_eq_digits :
    ∀ (fuel n : Nat) (ds : List Char), 0 < n → n ≤ fuel →
      Nat.toDigitsCore 10 fuel n ds =
        ((Nat.digits 10 n).map Nat.digitChar).reverse ++ ds := by
  intro fuel
  induction fuel with
  | zero => intro n ds hn hf; omega
  | succ f ih =>
    intro n ds hn hf
    by_cases h0 : n / 10 = 0
    · have h10 : n < 10 := by omega
      have hd : Nat.digits 10 n = [n % 10] := by
        rw [Nat.digits_def' (by norm_num : (1:ℕ) < 10) hn, h0]
        simp
      simp [Nat.toDigitsCore, h0, hd]
    · have hn' : 0 < n / 10 := Nat.pos_of_ne_zero h0
      have hlt : n / 10 < n := Nat.div_lt_self hn (by norm_num)
      have hf' : n / 10 ≤ f := by omega
      have hd : Nat.digits 10 n = n % 10 :: Nat.digits 10 (n / 10) :=
        Nat.digits_def' (by norm_num : (1:ℕ) < 10) hn
      simp only [Nat.toDigitsCore, h0, if_false]
      rw [ih (n / 10) (Nat.digitChar (n % 10) :: ds) hn' hf', hd]
      simp

theorem repr_data_of_pos {n : Nat} (hn : 0 < n) :
    (Nat.repr n).data = ((Nat.digits 10 n).map Nat.digitChar).reverse := by
  show (Nat.toDigits 10 n).asString.data = _
  rw [Nat.toDigits, toDigitsCore_eq_digits (n + 1) n [] hn (by omega)]
  simp [List.asString]

theorem repr_zero_data : (Nat.repr 0).data = ['0'] := by decide

theorem digitChar_inj_lt :
    ∀ a, a < 10 → ∀ b, b < 10 → Nat.digitChar a = Nat.digitChar b → a = b := by
  decide

theorem digitChar_ne_zero_char : ∀ a, a < 10 → a ≠ 0 → Nat.digitChar a ≠ '0' := by
  decide

theorem map_digitChar_inj :
    ∀ l₁ l₂ : List Nat, (∀ x ∈ l₁, x < 10) → (∀ x ∈ l₂, x < 10) →
      l₁.map Nat.digitChar = l₂.map Nat.digitChar → l₁ = l₂ := by
  intro l₁
  induction l₁ with
  | nil =>
    intro l₂ _ _ h
    cases l₂ with
    | nil => rfl
    | cons y ys => simp at h
  | cons x xs ih =>
    intro l₂ h₁ h₂ h
    cases l₂ with
    | nil => simp at h
    | cons y ys =>
      simp only [List.map_cons, List.cons.injEq] at h
      have hx : x = y :=
        digitChar_inj_lt x (h₁ x (List.mem_cons_self x xs)) y
          (h₂ y (List.mem_cons_self y ys)) h.1
      rw [hx, ih ys (fun z hz => h₁ z (List.mem_cons_of_mem x hz))
        (fun z hz => h₂ z (List.mem_cons_of_mem y hz)) h.2]

theorem repr_inj_pos {m n : Nat} (hm : 0 < m) (hn : 0 < n)
    (h : (Nat.repr m).data = (Nat.repr n).data) : m = n := by
  rw [repr_data_of_pos hm, repr_data_of_pos hn] at h
  have h2 : (Nat.digits 10 m).map Nat.digitChar = (Nat.digits 10 n).map Nat.digitChar :=
    List.reverse_injective h
  have hd : Nat.digits 10 m = Nat.digits 10 n :=
    map_digitChar_inj _ _ (fun x hx => Nat.digits_lt_base (by norm_num) hx)
      (fun x hx => Nat.digits_lt_base (by norm_num) hx) h2
  calc m = Nat.ofDigits 10 (Nat.digits 10 m) := (Nat.ofDigits_digits 10 m).symm
    _ = Nat.ofDigits 10 (Nat.digits 10 n) := by rw [hd]
    _ = n := Nat.ofDigits_digits 10 n

theorem repr_data_head_ne_zero {n : Nat} (hn : 0 < n) :
    ∃ c cs, (Nat.repr n).data = c :: cs ∧ c ≠ '0' := by
  have hne : Nat.digits 10 n ≠ [] :=
    Nat.digits_ne_nil_iff_ne_zero.mpr (by omega)
  have hrne : (Nat.digits 10 n).reverse ≠ [] := by simpa using hne
  obtain ⟨c, cs, hcc⟩ := List.exists_cons_of_ne_nil hrne
  have hcm : c ∈ Nat.digits 10 n := by
    have hc1 : c ∈ (Nat.digits 10 n).reverse := by
      rw [hcc]; exact List.mem_cons_self _ _
    simpa using hc1
  have hclt : c < 10 := Nat.digits_lt_base (by norm_num) hcm
  have hgl : (Nat.digits 10 n).getLast? = some c := by
    rw [← List.head?_reverse, hcc]; rfl
  have hc0 : c ≠ 0 := by
    intro hc0
    apply Nat.getLast_digit_ne_zero 10 (show n ≠ 0 by omega)
    rw [List.getLast?_eq_getLast_of_ne_nil hne] at hgl
    have hgl2 : (Nat.digits 10 n).getLast hne = c := by
      exact Option.some.inj hgl
    rw [hgl2, hc0]
  refine ⟨Nat.digitChar c, cs.map Nat.digitChar, ?_, digitChar_ne_zero_char c hclt hc0⟩
  rw [repr_data_of_pos hn, ← List.map_reverse, hcc, List.map_cons]

theorem dropWhile_zeros_append (l : List Char)
    (hl : ∀ c cs, l = c :: cs → c ≠ '0') :
    ∀ a : Nat, List.dropWhile (fun c => c == '0') (List.replicate a '0' ++ l) = l := by
  intro a
  induction a with
  | zero =>
    rw [List.replicate_zero, List.nil_append]
    cases hc : l with
    | nil => rfl
    | cons c cs =>
      have := hl c cs hc
      simp [List.dropWhile_cons, this]
  | succ a ih =>
    rw [List.replicate_succ, List.cons_append]
    simpa [List.dropWhile_cons] using ih

theorem zeroPad3_data (s : String) :
    (zeroPad3 s).data = List.replicate (3 - s.length) '0' ++ s.data := by
  show (String.mk (List.replicate (3 - s.length) '0') ++ s).data = _
  rw [String.data_append]

theorem zeroPad3_repr_inj {m n : Nat}
    (h : (zeroPad3 (Nat.repr m)).data = (zeroPad3 (Nat.repr n)).data) : m = n := by
  rw [zeroPad3_data, zeroPad3_data] at h
  have key : ∀ k : Nat, 0 < k →
      List.dropWhile (fun c => c == '0')
        (List.replicate (3 - (Nat.repr k).length) '0' ++ (Nat.repr k).data) =
        (Nat.repr k).data := by
    intro k hk
    obtain ⟨c, cs, hcc, hcne⟩ := repr_data_head_ne_zero hk
    refine dropWhile_zeros_append (Nat.repr k).data ?_ _
    intro c' cs' hc'
    rw [hcc] at hc'
    cases hc'
    exact hcne
  have hzero : List.dropWhile (fun c => c == '0')
      (List.replicate (3 - (Nat.repr 0).length) '0' ++ (Nat.repr 0).data) = [] := by
    decide
  rcases Nat.eq_zero_or_pos m with hm | hm <;> rcases Nat.eq_zero_or_pos n with hn | hn
  · omega
  · exfalso
    subst hm
    have h1 := hzero
    rw [h, key n hn] at h1
    obtain ⟨c, cs, hcc, _⟩ := repr_data_head_ne_zero hn
    rw [hcc] at h1
    cases h1
  · exfalso
    subst hn
    have h1 := hzero
    rw [← h, key m hm] at h1
    obtain ⟨c, cs, hcc, _⟩ := repr_data_head_ne_zero hm
    rw [hcc] at h1
    cases h1
  · have h1 := key m hm
    rw [h, key n hn] at h1
    exact repr_inj_pos hm hn h1.symm

theorem formatTaskId_inj : Function.Injective formatTaskId := by
  intro m n h
  apply zeroPad3_repr_inj
  have hd : ("task_" ++ zeroPad3 (Nat.repr m)).data =
      ("task_" ++ zeroPad3 (Nat.repr n)).data := congrArg String.data h
  rw [String.data_append, String.data_append] at hd
  exact List.append_cancel_left hd

theorem addMany_ids :
    ∀ (items : List (String × String)) (data : TaskData) (now : String),
      (addMany data items now).2.map Task.id =
        (List.range' data.next_id items.length).map formatTaskId := by
  intro items
  induction items with
  | nil => intro data now; rfl
  | cons td rest ih =>
    intro data now
    show formatTaskId data.next_id ::
        (addMany (add_task data td.1 td.2 none now).1 rest now).2.map Task.id = _
    rw [ih, List.length_cons, List.range'_succ, List.map_cons]
    rfl

theorem maximum_cons_foldl (x : Int) (xs : List Int) :
    (x :: xs).maximum = (xs.foldl max x : Int) := by
  induction xs generalizing x with
  | nil => exact List.maximum_singleton x
  | cons y ys ih =>
    rw [List.foldl_cons, ← ih (max x y)]
    simp [List.maximum_cons, WithBot.coe_max, max_assoc]

theorem pyMax_eq_maximum (l : List Int) : pyMax l 0 = l.maximum.unbot' 0 := by
  cases l with
  | nil => rfl
  | cons x xs =>
    show xs.foldl max x = (x :: xs).maximum.unbot' 0
    rw [maximum_cons_foldl]
    exact (WithBot.unbot'_coe _ _).symm

theorem add_task_priority (d : TaskData) (t ds : String) (rt : Option String)
    (n : String) :
    (add_task d t ds rt n).2.priority =
      if d.tasks = [] then 1 else ((d.tasks.map Task.priority).maximum.unbot' 0) + 1 := by
  show pyMax (d.tasks.map Task.priority) 0 + 1 = _
  rw [pyMax_eq_maximum]
  cases hd : d.tasks with
  | nil => simp [hd]
  | cons x xs => simp [hd]

/-- C6: over any sequence of `add` calls, the assigned task ids are the
zero-padded decimal ids of the strictly increasing counter values
`next_id, next_id + 1, ...`, hence pairwise distinct; and each new task's
priority is one past the maximum existing priority, or 1 when the store
is empty. -/
theorem add_ids_unique_increasing (data : TaskData) (items : List (String × String))
    (now : String) :
    ((addMany data items now).2.map Task.id =
      (List.range' data.next_id items.length).map formatTaskId) ∧
    List.Pairwise (fun a b => a < b) (List.range' data.next_id items.length) ∧
    ((addMany data items now).2.map Task.id).Nodup ∧
    (∀ (d : TaskData) (t ds : String) (rt : Option String) (m : String),
      (add_task d t ds rt m).2.priority =
        if d.tasks = [] then 1 else ((d.tasks.map Task.priority).maximum.unbot' 0) + 1) := by
  refine ⟨addMany_ids items data now, List.pairwise_lt_range' _ _, ?_,
    fun d t ds rt m => add_task_priority d t ds rt m⟩
  rw [addMany_ids items data now]
  exact (List.nodup_range' _ _).map formatTaskId_inj

theorem firstIdx_eq_none :
    ∀ (l : List String) (tid : String), tid ∉ l → firstIdx l tid = none := by
  intro l
  induction l with
  | nil => intro tid _; rfl
  | cons x xs ih =>
    intro tid h
    have hx : x ≠ tid := fun he => h (he ▸ List.mem_cons_self x xs)
    have hxs : tid ∉ xs := fun hm => h (List.mem_cons_of_mem x hm)
    simp [firstIdx, hx, ih tid hxs]

theorem firstIdx_of_mem :
    ∀ (l : List String) (tid : String), tid ∈ l → ∃ i, firstIdx l tid = some i := by
  intro l
  induction l with
  | nil => intro tid h; cases h
  | cons x xs ih =>
    intro tid h
    by_cases hx : x = tid
    · exact ⟨0, by simp [firstIdx, hx]⟩
    · obtain ⟨j, hj⟩ := ih tid (by
        rcases List.mem_cons.mp h with h | h
        · exact absurd h.symm hx
        · exact h)
      exact ⟨j + 1, by simp [firstIdx, hx, hj]⟩

theorem firstIdx_get? :
    ∀ (l : List String) (tid : String) (i : Nat),
      firstIdx l tid = some i → l.get? i = some tid := by
  intro l
  induction l with
  | nil => intro tid i h; cases h
  | cons x xs ih =>
    intro tid i h
    by_cases hx : x = tid
    · simp only [firstIdx, if_pos hx] at h
      cases h
      simp [hx]
    · simp only [firstIdx, if_neg hx] at h
      obtain ⟨j, hj, rfl⟩ := Option.map_eq_some'.mp h
      simpa using ih tid j hj

theorem nodup_firstIdx_get :
    ∀ {l : List String}, l.Nodup → ∀ i : Fin l.length,
      firstIdx l (l.get i) = some (i : Nat) := by
  intro l
  induction l with
  | nil => intro _ i; exact absurd i.2 (by simp)
  | cons x xs ih =>
    intro hnd i
    match i with
    | ⟨0, _⟩ => simp [firstIdx]
    | ⟨j + 1, hj⟩ =>
      have hjlt : j < xs.length := by simpa using hj
      have hget : (x :: xs).get ⟨j + 1, hj⟩ = xs.get ⟨j, hjlt⟩ := rfl
      have hmem : xs.get ⟨j, hjlt⟩ ∈ xs := List.get_mem xs j hjlt
      have hx : x ≠ xs.get ⟨j, hjlt⟩ := by
        intro he
        exact (List.nodup_cons.mp hnd).1 (he ▸ hmem)
      rw [hget]
      simp only [firstIdx, if_neg hx, ih (List.nodup_cons.mp hnd).2 ⟨j, hjlt⟩]
      rfl

theorem enumFrom_filterMap_firstIdx (tid : String) :
    ∀ (ids : List String), ids.Nodup → ∀ k : Nat,
      (List.enumFrom k ids).filterMap
          (fun p => if p.2 = tid then some (p.1 + 1) else none) =
        (match firstIdx ids tid with
         | some i => [k + i + 1]
         | none => []) := by
  intro ids
  induction ids with
  | nil => intro _ k; rfl
  | cons x xs ih =>
    intro hnd k
    have hnd' := (List.nodup_cons.mp hnd).2
    by_cases hx : x = tid
    · subst hx
      have hxs : x ∉ xs := (List.nodup_cons.mp hnd).1
      have hf : firstIdx xs x = none := firstIdx_eq_none xs x hxs
      simp [List.enumFrom, List.filterMap_cons, firstIdx, ih hnd' (k + 1), hf]
    · simp only [List.enumFrom, List.filterMap_cons, if_neg hx, ih hnd' (k + 1)]
      simp only [firstIdx, if_neg hx]
      cases hfi : firstIdx xs tid with
      | none => simp
      | some i =>
        simp only [Option.map_some']
        have : k + 1 + i + 1 = k + (i + 1) + 1 := by omega
        rw [this]

theorem idToPriority_eq_of_nodup {ids : List String} (h : ids.Nodup) (tid : String) :
    idToPriority ids tid = (firstIdx ids tid).map (· + 1) := by
  unfold idToPriority
  rw [show ids.enum = List.enumFrom 0 ids from rfl,
    enumFrom_filterMap_firstIdx tid ids h 0]
  cases hfi : firstIdx ids tid with
  | none => rfl
  | some i => simp

theorem reorderTask_id (ids : List String) (t : Task) :
    (reorderTask ids t).id = t.id := by
  unfold reorderTask
  cases idToPriority ids t.id <;> rfl

theorem reorderTask_priority_of_mem {ids : List String} (h : ids.Nodup) {t : Task}
    (hm : t.id ∈ ids) :
    ∃ i, firstIdx ids t.id = some i ∧ (reorderTask ids t).priority = (i : Int) + 1 := by
  obtain ⟨i, hi⟩ := firstIdx_of_mem ids t.id hm
  refine ⟨i, hi, ?_⟩
  unfold reorderTask
  rw [idToPriority_eq_of_nodup h, hi]
  show ((i + 1 : Nat) : Int) = (i : Int) + 1
  push_cast
  rfl

/-- C8: for every duplicate-free list of task ids present in the store,
`reorder(ids)` followed by a priority-sorted `list()` reproduces `ids`
exactly on the reordered subset: the tasks whose ids occur in `ids`,
taken in priority order, carry exactly the ids in the given order. -/
theorem reorder_sorted_list_roundtrip (data : TaskData) (ids : List String)
    (h1 : ids.Nodup) (h2 : (data.tasks.map Task.id).Nodup)
    (h3 : ∀ tid ∈ ids, tid ∈ data.tasks.map Task.id) :
    ((List.insertionSort taskLE (get_tasks (reorder_tasks data ids) none)).filter
        (fun u => u.id ∈ ids)).map Task.id = ids := by
  have hget : get_tasks (reorder_tasks data ids) none =
      data.tasks.map (reorderTask ids) := rfl
  rw [hget]
  have hperm : List.Perm
      ((List.insertionSort taskLE (data.tasks.map (reorderTask ids))).filter
        (fun u => u.id ∈ ids))
      ((data.tasks.map (reorderTask ids)).filter (fun u => u.id ∈ ids)) :=
    (List.perm_insertionSort taskLE _).filter _
  have hsortedF : List.Pairwise taskLE
      ((List.insertionSort taskLE (data.tasks.map (reorderTask ids))).filter
        (fun u => u.id ∈ ids)) :=
    List.Pairwise.sublist (List.filter_sublist _)
      (List.sorted_insertionSort taskLE _)
  have hids' : (data.tasks.map (reorderTask ids)).map Task.id = data.tasks.map Task.id := by
    rw [List.map_map]
    exact List.map_congr_left (fun a _ => reorderTask_id ids a)
  have hfm : ((data.tasks.map (reorderTask ids)).map Task.id).filter (fun s => s ∈ ids) =
      ((data.tasks.map (reorderTask ids)).filter (fun u => u.id ∈ ids)).map Task.id := by
    rw [List.filter_map]
    rfl
  have hperm2 : List.Perm
      (((data.tasks.map (reorderTask ids)).filter (fun u => u.id ∈ ids)).map Task.id)
      ids := by
    rw [← hfm, hids']
    apply (List.perm_ext_iff_of_nodup (h2.filter _) h1).mpr
    intro s
    simp only [List.mem_filter, decide_eq_true_eq]
    exact ⟨fun hs => hs.2, fun hs => ⟨h3 s hs, hs⟩⟩
  have hpermF : List.Perm
      (((List.insertionSort taskLE (data.tasks.map (reorderTask ids))).filter
        (fun u => u.id ∈ ids)).map Task.id) ids :=
    (hperm.map Task.id).trans hperm2
  have hnodupF : ((((List.insertionSort taskLE (data.tasks.map (reorderTask ids))).filter
        (fun u => u.id ∈ ids)).map Task.id)).Nodup :=
    hpermF.nodup_iff.mpr h1
  have hkey : ∀ t : Task,
      t ∈ (List.insertionSort taskLE (data.tasks.map (reorderTask ids))).filter
        (fun u => u.id ∈ ids) →
      ∃ i, firstIdx ids t.id = some i ∧ t.priority = (i : Int) + 1 := by
    intro t ht
    have hmf := List.mem_filter.mp ht
    have htid : t.id ∈ ids := by simpa using hmf.2
    have htts : t ∈ data.tasks.map (reorderTask ids) :=
      (List.mem_insertionSort taskLE).mp hmf.1
    obtain ⟨u, hu, hut⟩ := List.mem_map.mp htts
    have huid : u.id = t.id := by rw [← hut, reorderTask_id]
    obtain ⟨i, hfi, hpri⟩ := reorderTask_priority_of_mem h1 (t := u) (huid ▸ htid)
    exact ⟨i, by rwa [huid] at hfi, by rw [← hut]; exact hpri⟩
  have hpwne : List.Pairwise (fun a b : Task => a.id ≠ b.id)
      ((List.insertionSort taskLE (data.tasks.map (reorderTask ids))).filter
        (fun u => u.id ∈ ids)) :=
    List.pairwise_map.mp hnodupF
  have hpwkey : List.Pairwise
      (fun a b : Task => (firstIdx ids a.id).getD 0 < (firstIdx ids b.id).getD 0)
      ((List.insertionSort taskLE (data.tasks.map (reorderTask ids))).filter
        (fun u => u.id ∈ ids)) := by
    apply List.Pairwise.imp_of_mem ?_ (hsortedF.and hpwne)
    intro a b ha hb hab
    obtain ⟨ia, hfa, hpa⟩ := hkey a ha
    obtain ⟨ib, hfb, hpb⟩ := hkey b hb
    have hle : ia ≤ ib := by
      have hple : a.priority ≤ b.priority := hab.1
      rw [hpa, hpb] at hple
      exact_mod_cast (by linarith : (ia : Int) ≤ (ib : Int))
    have hne : ia ≠ ib := by
      intro he
      apply hab.2
      have h1a := firstIdx_get? ids a.id ia hfa
      have h1b := firstIdx_get? ids b.id ib hfb
      rw [he, h1b] at h1a
      exact (Option.some.inj h1a).symm
    rw [hfa, hfb]
    show ia < ib
    omega
  have hsorted_map : List.Pairwise
      (fun s1 s2 : String => (firstIdx ids s1).getD 0 < (firstIdx ids s2).getD 0)
      ((((List.insertionSort taskLE (data.tasks.map (reorderTask ids))).filter
        (fun u => u.id ∈ ids)).map Task.id)) :=
    List.pairwise_map.mpr hpwkey
  have hsorted_ids : List.Pairwise
      (fun s1 s2 : String => (firstIdx ids s1).getD 0 < (firstIdx ids s2).getD 0) ids := by
    rw [List.pairwise_iff_get]
    intro i j hij
    rw [nodup_firstIdx_get h1 i, nodup_firstIdx_get h1 j]
    simpa using hij
  haveI : IsAntisymm String
      (fun s1 s2 : String => (firstIdx ids s1).getD 0 < (firstIdx ids s2).getD 0) :=
    ⟨fun a b hab hba => ((Nat.lt_asymm hab) hba).elim⟩
  exact List.eq_of_perm_of_sorted hpermF hsorted_map hsorted_ids

/-- C8 witness: reordering `[task_003, task_001]` in a three-task store
and listing by priority yields exactly those ids in that order on the
reordered subset. -/
theorem reorder_sorted_list_roundtrip_witness :
    ((List.insertionSort taskLE (get_tasks (reorder_tasks c8Data c8Ids) none)).filter
        (fun u => u.id ∈ c8Ids)).map Task.id = c8Ids :=
  reorder_sorted_list_roundtrip c8Data c8Ids (by decide) (by decide) (by decide)

/-- C1 counterexample: on the third evaluation of the unresolved-`tests`
scenario the retry cap is reached and the result is force-accepted with
`passed = true` — but the `tests` blocking issue is still reported in
`blocking_issues` and does NOT appear among the warnings (only the
generic MAX RETRIES warning is appended), refuting "remaining blocking
issues are reported as warnings instead of blocking issues". -/
theorem force_accept_keeps_blocking_cex :
    (_verify_session (c1EnvAt c1Checkpoint2)).force_accepted = true ∧
    (_verify_session (c1EnvAt c1Checkpoint2)).passed = true ∧
    (_verify_session (c1EnvAt c1Checkpoint2)).retry_count = 3 ∧
    "tests: Tests failed" ∈ (_verify_session (c1EnvAt c1Checkpoint2)).blocking_issues ∧
    "tests: Tests failed" ∉ (_verify_session (c1EnvAt c1Checkpoint2)).warnings := by
  decide

/-- C1 (amended): for every verification evaluation in which blocking
issues are present and the retry counter has reached the cap of 3, the
result has `force_accepted = true` and `passed = true`; the blocking
issues remain listed in `blocking_issues`, and the warning
"MAX RETRIES (3) reached — accepting with issues" is appended to the
warnings. -/
theorem force_accept_at_cap (env : VerifyEnv)
    (h1 : (_verify_session env).blocking_issues ≠ [])
    (h2 : MAX_VERIFY_RETRIES ≤ (_verify_session env).retry_count) :
    (_verify_session env).force_accepted = true ∧
    (_verify_session env).passed = true ∧
    (_verify_session env).blocking_issues ≠ [] ∧
    maxRetriesWarning ∈ (_verify_session env).warnings := by
  have h1' : verifyBlocking env ≠ [] := h1
  have h2' : MAX_VERIFY_RETRIES ≤ verifyRetryCount env := h2
  have hf : verifyForce env = true := by
    unfold verifyForce
    rw [decide_eq_true h1', decide_eq_true h2']
    rfl
  refine ⟨hf, ?_, h1, ?_⟩
  · show (decide (verifyBlocking env = []) || verifyForce env) = true
    rw [hf]
    simp
  · show maxRetriesWarning ∈
      (checkPartition env.val_results env.baseline).2 ++
        (if verifyForce env then [maxRetriesWarning] else [])
    rw [hf]
    simp

/-- C1 witness: the third evaluation of the three-session scenario (the
same new `tests` failure left unresolved, the failed verification written
back to the checkpoint each time) reaches the cap and is force-accepted. -/
theorem force_accept_at_cap_witness :
    (_verify_session (c1EnvAt c1Checkpoint2)).force_accepted = true ∧
    (_verify_session (c1EnvAt c1Checkpoint2)).passed = true ∧
    (_verify_session (c1EnvAt c1Checkpoint2)).blocking_issues ≠ [] ∧
    maxRetriesWarning ∈ (_verify_session (c1EnvAt c1Checkpoint2)).warnings :=
  force_accept_at_cap (c1EnvAt c1Checkpoint2) (by decide) (by decide)

/-- C3: within a session, starting from the reset state that
`_run_claude_max` installs (`_context_overflow = False`), the guard-fired
flags of a sequence of usage reports are exactly the first at-or-above
threshold report (computed as `tokens_in / CONTEXT_WINDOW_SIZE ≥ 0.70`):
the guard fires at most once, it fires exactly once iff some report
reaches the threshold, and a report of 140000 of 200000 input tokens
(exactly 70.0%) fires it. -/
theorem context_guard_fires_once (es : List UsageEvent) :
    sessionInit.context_overflow = false ∧
    fireFlags sessionInit es = markFirst (reachedFlags sessionInit es) ∧
    (fireFlags sessionInit es).count true ≤ 1 ∧
    ((fireFlags sessionInit es).count true = 1 ↔ true ∈ reachedFlags sessionInit es) ∧
    (rateLimitStep sessionInit { hasUsage := true, input_tokens := some 140000 }).2 = true := by
  have hmf := fireFlags_eq_markFirst_reached es sessionInit rfl
  refine ⟨rfl, hmf, ?_, ?_, ?_⟩
  · rw [hmf]; exact count_markFirst_le_one _
  · rw [hmf]; exact count_markFirst_eq_one_iff _
  · norm_num [rateLimitStep, sessionInit, CONTEXT_THRESHOLD, CONTEXT_WINDOW_SIZE]

end A1
